import Mathlib

/-!
Shallow embedding of the influract backend (FastAPI contract-analysis service)
for verification of its natural-language specification.

Source files embedded:
- backend/app/services/contract_service.py  (text extraction, model-reply
  cleaning, rejection/success classification, negotiation-email generator)
- backend/app/storage.py                    (JSON-file analysis store)
- backend/app/routes/contracts.py           (HTTP route handlers)

Modelling conventions:
- Python dicts holding parsed JSON are modelled by the `Json` inductive below;
  `dict.get` / item assignment become `Json.getField` / `Json.setField`.
- The external Gemini model call is not performed: functions that consume the
  model reply take the reply (raw string, or its parsed JSON) as a parameter,
  so "no model call is made" is expressed as independence from that parameter.
- File-system state (the storage directory, the in-memory `_temp_storage`
  dict) is passed explicitly as association lists.
- `random.choice` over a 5-element list is modelled by a `Fin 5` index
  parameter.
- Python byte strings are lists of `Nat` values below 256.
-/

/-- A parsed JSON value, as produced by Python `json.loads`:
`None`/`bool`/numbers/strings/lists/dicts. Numbers are modelled as integers
(the fields the service inspects are booleans and strings; no claim depends
on float values). Dict insertion order is the list order; `json.loads`
never produces duplicate keys. -/
inductive Json where
  | null : Json
  | bool (b : Bool) : Json
  | num (n : Int) : Json
  | str (s : String) : Json
  | arr (elems : List Json) : Json
  | obj (fields : List (String × Json)) : Json

/-- First-occurrence lookup in an association list: Python `dict[k]` /
`dict.get(k)` (parsed-JSON dicts have unique keys, where this coincides
with Python's semantics). -/
def lookupKey {α : Type} (fs : List (String × α)) (k : String) : Option α :=
  match fs with
  | [] => none
  | (k', v) :: rest => if k' = k then some v else lookupKey rest k

/-- Python `dict[k] = v`: replace the value at an existing key in place
(keeping its insertion position), otherwise append the new key at the end. -/
def setKey {α : Type} (fs : List (String × α)) (k : String) (v : α) : List (String × α) :=
  match fs with
  | [] => [(k, v)]
  | (k', v') :: rest => if k' = k then (k, v) :: rest else (k', v') :: setKey rest k v

/-- Python `analysis.get(k)`, returning `none` when the key is absent.
On a non-dict value Python would raise `AttributeError`; that path is outside
every claim's domain and is modelled as `none`. -/
def Json.getField (j : Json) (k : String) : Option Json :=
  match j with
  | .obj fs => lookupKey fs k
  | _ => none

/-- Python `analysis[k] = v` on a dict. On a non-dict value Python would
raise `TypeError`; that path is outside every claim's domain and is modelled
as the identity. -/
def Json.setField (j : Json) (k : String) (v : Json) : Json :=
  match j with
  | .obj fs => .obj (setKey fs k v)
  | _ => j

/-- The keys of a dict, in insertion order (empty for non-dicts). -/
def Json.keys (j : Json) : List String :=
  match j with
  | .obj fs => fs.map Prod.fst
  | _ => []

/-- Python truthiness of a parsed JSON value (`if analysis.get(k):`):
`None`, `False`, `0`, `""`, `[]` and `\x7b\x7d` are falsy. -/
def Json.truthy (j : Json) : Bool :=
  match j with
  | .null => false
  | .bool b => b
  | .num n => n != 0
  | .str s => s != ""
  | .arr es => !es.isEmpty
  | .obj fs => !fs.isEmpty

/-- Truthiness of `analysis.get(k)` (absent key gives Python `None`, falsy). -/
def Json.truthyField (j : Json) (k : String) : Bool :=
  match j.getField k with
  | some v => v.truthy
  | none => false

mutual
/-- Python `repr` of a parsed JSON value, used by `Json.pyStr` for the
values nested inside containers. Faithful for `None`, booleans, integers
and quote-free strings; string escaping inside `repr` is not modelled
(no claim exercises it). -/
def Json.pyRepr (j : Json) : String :=
  match j with
  | .null => "None"
  | .bool true => "True"
  | .bool false => "False"
  | .num n => toString n
  | .str s => "\x27" ++ s ++ "\x27"
  | .arr es => "[" ++ String.intercalate ", " (Json.pyReprList es) ++ "]"
  | .obj fs => "\x7b" ++ String.intercalate ", " (Json.pyReprPairs fs) ++ "\x7d"

def Json.pyReprList (es : List Json) : List String :=
  match es with
  | [] => []
  | j :: js => Json.pyRepr j :: Json.pyReprList js

def Json.pyReprPairs (fs : List (String × Json)) : List String :=
  match fs with
  | [] => []
  | (k, v) :: rest => ("\x27" ++ k ++ "\x27: " ++ Json.pyRepr v) :: Json.pyReprPairs rest
end

/-- Python `str()` applied to a parsed JSON value, as f-string interpolation
does: a string renders as itself, everything else as its `repr`. -/
def Json.pyStr (j : Json) : String :=
  match j with
  | .str s => s
  | j => j.pyRepr

/-- The ASCII whitespace characters recognised by Python `str.strip()`,
`\s` in `re` patterns, and `str.split()` (Unicode whitespace beyond ASCII
is not modelled; no claim exercises it). -/
def isPyWs (c : Char) : Bool :=
  c = ' ' || c = '\t' || c = '\n' || c = '\r' || c = '\x0b' || c = '\x0c'

/-- Python `str.strip()`: remove leading and trailing whitespace. -/
def pyStrip (s : String) : String :=
  String.mk (((s.data.dropWhile isPyWs).reverse.dropWhile isPyWs).reverse)

/-- Python `str.lower()` (ASCII case mapping; the filenames dispatched on
are ASCII). -/
def pyLower (s : String) : String :=
  String.mk (s.data.map Char.toLower)

/-- Python `str.endswith(suffix)`. -/
def pyEndsWith (s suffix : String) : Bool :=
  suffix.data.isSuffixOf s.data

deriving instance DecidableEq for Except

/-- Is a byte a UTF-8 continuation byte (`0x80..0xBF`)? -/
def isContByte (b : Nat) : Bool :=
  0x80 ≤ b && b ≤ 0xBF

/-- Recursive worker for UTF-8 decoding with Python `errors='ignore'`
semantics. The `fuel` argument only makes the recursion structural; every
step consumes at least one byte, so `fuel = length of the input` (as
passed by `utf8DecodeChars`) never runs out before the input does.
Well-formed sequences (no overlongs, no surrogates, at most `U+10FFFF`)
decode to their scalar value; each ill-formed maximal subpart is silently
skipped. -/
def utf8DecodeAux : Nat → List Nat → List Char
  | 0, _ => []
  | _ + 1, [] => []
  | fuel + 1, b :: rest =>
    if b < 0x80 then
      Char.ofNat b :: utf8DecodeAux fuel rest
    else if 0xC2 ≤ b && b ≤ 0xDF then
      match rest with
      | [] => []
      | c :: rest2 =>
        if isContByte c then
          Char.ofNat ((b - 0xC0) * 64 + (c - 0x80)) :: utf8DecodeAux fuel rest2
        else utf8DecodeAux fuel (c :: rest2)
    else if 0xE0 ≤ b && b ≤ 0xEF then
      match rest with
      | [] => []
      | c :: rest2 =>
        if (if b = 0xE0 then 0xA0 ≤ c && c ≤ 0xBF
            else if b = 0xED then 0x80 ≤ c && c ≤ 0x9F
            else isContByte c) then
          match rest2 with
          | [] => []
          | d :: rest3 =>
            if isContByte d then
              Char.ofNat ((b - 0xE0) * 4096 + (c - 0x80) * 64 + (d - 0x80)) ::
                utf8DecodeAux fuel rest3
            else utf8DecodeAux fuel (d :: rest3)
        else utf8DecodeAux fuel (c :: rest2)
    else if 0xF0 ≤ b && b ≤ 0xF4 then
      match rest with
      | [] => []
      | c :: rest2 =>
        if (if b = 0xF0 then 0x90 ≤ c && c ≤ 0xBF
            else if b = 0xF4 then 0x80 ≤ c && c ≤ 0x8F
            else isContByte c) then
          match rest2 with
          | [] => []
          | d :: rest3 =>
            if isContByte d then
              match rest3 with
              | [] => []
              | e :: rest4 =>
                if isContByte e then
                  Char.ofNat ((b - 0xF0) * 262144 + (c - 0x80) * 4096 +
                      (d - 0x80) * 64 + (e - 0x80)) :: utf8DecodeAux fuel rest4
                else utf8DecodeAux fuel (e :: rest4)
            else utf8DecodeAux fuel (d :: rest3)
        else utf8DecodeAux fuel (c :: rest2)
    else
      utf8DecodeAux fuel rest

/-- UTF-8 decoding of a byte sequence with Python `errors='ignore'`
semantics, as in `file_bytes.decode('utf-8', errors='ignore')`. The
function is total: decoding never fails. -/
def utf8DecodeChars (fileBytes : List Nat) : List Char :=
  utf8DecodeAux fileBytes.length fileBytes

/-- `bytes.decode('utf-8', errors='ignore')` as a total `String`-valued
function. -/
def decodeUtf8Ignore (fileBytes : List Nat) : String :=
  String.mk (utf8DecodeChars fileBytes)

/-- The UTF-8 encoding of one character (used to model Python
`str.encode('utf-8')`). -/
def charUtf8Bytes (c : Char) : List Nat :=
  let n := c.toNat
  if n < 0x80 then [n]
  else if n < 0x800 then [0xC0 + n / 64, 0x80 + n % 64]
  else if n < 0x10000 then
    [0xE0 + n / 4096, 0x80 + (n / 64) % 64, 0x80 + n % 64]
  else
    [0xF0 + n / 262144, 0x80 + (n / 4096) % 64, 0x80 + (n / 64) % 64, 0x80 + n % 64]

/-- Python `text.encode('utf-8')`. -/
def encodeUtf8 (s : String) : List Nat :=
  s.data.foldr (fun c acc => charUtf8Bytes c ++ acc) []

/-!
## contract_service.py
-/

/-- `extract_text(file_bytes, filename)` (contract_service.py lines 44-56):
dispatch on the lowercased filename extension. The PDF and DOCX library
calls (`extract_text_from_pdf` / `extract_text_from_docx`, which wrap any
library exception into a `ValueError`) are opaque external code, passed in
as the `pdfExtract` / `docxExtract` parameters; `.txt` and every other
extension take the lossy UTF-8 decode path. `Except.error` models a raised
`ValueError`. -/
def extract_text (pdfExtract docxExtract : List Nat → Except String String)
    (fileBytes : List Nat) (filename : String) : Except String String :=
  let filenameLower := pyLower filename
  if pyEndsWith filenameLower ".pdf" then pdfExtract fileBytes
  else if pyEndsWith filenameLower ".docx" then docxExtract fileBytes
  else if pyEndsWith filenameLower ".txt" then .ok (decodeUtf8Ignore fileBytes)
  else .ok (decodeUtf8Ignore fileBytes)

/-- `l.dropWhile isPyWs`: the effect of a leading `\s*` in an `re` pattern. -/
def dropWs (l : List Char) : List Char :=
  l.dropWhile isPyWs

/-- `re.sub(r'^```json?\s*', '', response_text)` (contract_service.py line
155). The regex requires the literal characters backtick-backtick-backtick,
`j`, `s`, `o`, then an optional `n` (the `?` binds only to `n`), then eats
whitespace; `^` anchors it so at most one leading match is removed, the
longer alternative first (greedy `n?`). A reply starting with a bare fence
or any other language tag is left unchanged. -/
def stripLeadingFence (l : List Char) : List Char :=
  if "```json".data.isPrefixOf l then dropWs (l.drop 7)
  else if "```jso".data.isPrefixOf l then dropWs (l.drop 6)
  else l

/-- `re.sub(r'\s*```$', '', response_text)` (contract_service.py line 156),
on input with no trailing newline: remove a trailing fence together with
the whitespace run before it. (The `$`-before-final-newline case of Python
`re` cannot arise here because the input below is always the result of
`.strip()` followed by a substitution that only touches the front.) -/
def stripTrailingFence (l : List Char) : List Char :=
  if "```".data.isSuffixOf l then (dropWs ((l.reverse).drop 3)).reverse
  else l

/-- Lines 151-156 of contract_service.py: `response.text.strip()` followed
by the fence-cleanup branch guarded by `response_text.startswith("```")`. -/
def cleanModelReply (rawReply : String) : String :=
  let t := pyStrip rawReply
  if "```".data.isPrefixOf t.data then
    String.mk (stripTrailingFence (stripLeadingFence t.data))
  else t

/-- The `ValueError` message raised when too little text was extracted
(contract_service.py line 138). -/
def NOT_ENOUGH_TEXT_MESSAGE : String :=
  "Could not extract enough text from the contract. Please try a different file format."

/-- The fixed `suggestion` string of the rejection response
(contract_service.py line 180). -/
def SUGGESTION_MESSAGE : String :=
  "Upload a real contract, deal, or agreement and I\x27ll help you spot the red flags! 🚩"

/-- The `funny_messages` list (contract_service.py lines 166-172): five
f-string templates parameterized by the rendered `doc_type`. -/
def funnyMessages (docType : String) : List String :=
  [ "Nice try! 🎭 You uploaded a " ++ docType ++
      "... try pranking me next time. Pls give me an actual contract, bestie!",
    "Uhh... this looks like a " ++ docType ++
      "? I\x27m a contract analyzer, not a fortune teller! 🔮 Send me a real deal!",
    "Lmao you really thought I wouldn\x27t notice this is just a " ++ docType ++
      "? 😂 Give me a contract or go home!",
    "Bruh. This is a " ++ docType ++
      ". I analyze CONTRACTS. You know, the legal stuff? Try again! 📜",
    "Error 404: Contract not found. Found: " ++ docType ++
      ". Try pranking me next time! 🤡" ]

/-- Lines 163-188 of `analyze_contract`: branch on the truthiness of the
parsed reply's `not_a_contract` field. `random.choice(funny_messages)` is
modelled by the `choice : Fin 5` index (the list always has five entries,
so `List.getD` never falls back to its default). On the success branch the
three metadata fields are assigned into the parsed dict in source order. -/
def classify (analysis : Json) (filename country contractText : String)
    (choice : Fin 5) : Json :=
  if analysis.truthyField "not_a_contract" then
    let docTypeRaw := (analysis.getField "document_type").getD (.str "random document")
    let docType := docTypeRaw.pyStr
    Json.obj
      [ ("not_a_contract", .bool true),
        ("prank_detected", .bool true),
        ("document_type", docTypeRaw),
        ("message", .str ((funnyMessages docType).getD choice.val "")),
        ("filename", .str filename),
        ("suggestion", .str SUGGESTION_MESSAGE) ]
  else
    ((analysis.setField "filename" (.str filename)).setField
        "country" (.str country)).setField
      "contract_text_preview"
      (.str (if contractText.length > 500 then contractText.take 500 ++ "..."
             else contractText))

/-- The body of `analyze_contract` (contract_service.py lines 134-188)
after text extraction. Building the instruction prompt, issuing the model
call and JSON-parsing the cleaned reply are modelled by the `parsedReply`
parameter (the reply-string cleaning itself is `cleanModelReply`); the
too-short-text `ValueError` (line 137-138, which also fires on empty text)
is raised before any of that happens, so on that branch the result does not
depend on `parsedReply` or `choice`. -/
def analyze_contract_text (contractText filename country : String)
    (parsedReply : Json) (choice : Fin 5) : Except String Json :=
  if contractText = "" || (pyStrip contractText).length < 50 then
    .error NOT_ENOUGH_TEXT_MESSAGE
  else
    .ok (classify parsedReply filename country contractText choice)

/-- `analyze_contract(file_bytes, filename, country)` end to end:
extraction followed by validation, prompting/model/parse (parameterized)
and classification. A `ValueError` from extraction propagates. -/
def analyze_contract (pdfExtract docxExtract : List Nat → Except String String)
    (fileBytes : List Nat) (filename country : String)
    (parsedReply : Json) (choice : Fin 5) : Except String Json :=
  match extract_text pdfExtract docxExtract fileBytes filename with
  | .error e => .error e
  | .ok contractText =>
      analyze_contract_text contractText filename country parsedReply choice

/-- The canned reply of `generate_negotiation_email` when no clause is
yellow or red (contract_service.py line 215). -/
def NO_NEGOTIATION_MESSAGE : String :=
  "Great news! This contract looks pretty standard and doesn\x27t have major red flags. You may not need to negotiate, but always feel free to ask clarifying questions!"

/-- `analysis.get("clauses", [])` as a list of clause dicts. A present
non-list value would make the Python list comprehension iterate something
that is not a clause list (and crash on `c.get`); that path is outside
every claim's domain and is modelled as the empty list. -/
def clausesOf (analysis : Json) : List Json :=
  match analysis.getField "clauses" with
  | some (.arr cs) => cs
  | _ => []

/-- `c.get("risk_level") in ["yellow", "red"]` for one clause dict. -/
def isConcerning (c : Json) : Bool :=
  match c.getField "risk_level" with
  | some (.str s) => s = "yellow" || s = "red"
  | _ => false

/-- The `analysis_for_prompt` dict (contract_service.py lines 218-222)
that is JSON-dumped into the negotiation-email prompt. -/
structure EmailPromptData where
  summary : Json
  concerning_clauses : List Json
  next_steps : Json

/-- The observable outcome of `generate_negotiation_email`: either the
canned message returned without invoking the model, or a single model
invocation carrying the prompt data (the model call itself is external
I/O, so the embedding returns the request it would issue). -/
inductive EmailOutcome where
  | canned (message : String)
  | modelCall (data : EmailPromptData)

/-- `generate_negotiation_email(analysis)` (contract_service.py lines
206-231): filter the clauses to the yellow/red ones; if none remain return
the canned message without any model call, otherwise build the prompt data
from the summary, the first five concerning clauses and the next steps. -/
def generate_negotiation_email (analysis : Json) : EmailOutcome :=
  let concerning := (clausesOf analysis).filter isConcerning
  if concerning.isEmpty then
    .canned NO_NEGOTIATION_MESSAGE
  else
    .modelCall
      { summary := (analysis.getField "summary").getD (.obj []),
        concerning_clauses := concerning.take 5,
        next_steps := (analysis.getField "next_steps").getD (.arr []) }

/-!
## storage.py
-/

/-- The parsed content of one `<id>.json` file in the data directory:
either a record that `json.load` parses, or a file whose read/parse raises
(the `except Exception: continue` case of `list_analyses`). -/
inductive FileData where
  | good (record : Json)
  | corrupt

/-- The state of the storage directory: one entry per stored file, keyed
by the id part of its `<id>.json` filename. -/
abbrev Store := List (String × FileData)

/-- Is a stored file a readable dict record — the only kind
`list_analyses` summarizes? A corrupt file raises in `json.load`, a
readable non-dict value raises `AttributeError` in `data.get`; both are
inside the `try` and skipped by `except Exception: continue`. -/
def isGoodRecord : FileData → Bool
  | .good (.obj _) => true
  | _ => false

/-- `save_analysis(analysis)` (storage.py lines 24-34). The generated
`uuid.uuid4()` and the `datetime.utcnow().isoformat()` timestamp are
environment inputs, passed as `newId` and `createdAt`. The function
mutates the caller's dict in place (`analysis["id"] = ...`,
`analysis["created_at"] = ...`) and then writes that dict to
`<id>.json`; in this state-passing embedding the mutated caller dict is
the second component of the result, the written store the first, and the
returned id the third. `open(path, "w")` overwrites an existing file,
hence `setKey`. `json.dump` followed by `json.load` is the identity on
parsed-JSON values, so the store holds the `Json` value directly. -/
def save_analysis (store : Store) (analysis : Json) (newId createdAt : String) :
    Store × Json × String :=
  let record := (analysis.setField "id" (.str newId)).setField "created_at" (.str createdAt)
  (setKey store newId (.good record), record, newId)

/-- `get_analysis(analysis_id)` (storage.py lines 37-44): `None` when the
file does not exist, the parsed record otherwise. Reading a corrupt file
raises out of `json.load`, modelled by `Except.error`. -/
def get_analysis (store : Store) (analysisId : String) : Except String (Option Json) :=
  match lookupKey store analysisId with
  | none => .ok none
  | some (.good record) => .ok (some record)
  | some .corrupt => .error "failed to parse stored analysis"

/-- The summary dict built for one record inside `list_analyses`
(storage.py lines 56-61): exactly the four fields `id`, `created_at`,
`filename` (each `data.get(k)`, so `None` when absent) and `summary`
(`data.get("summary", \x7b\x7d)`). -/
def mkSummary (record : Json) : Json :=
  .obj
    [ ("id", (record.getField "id").getD .null),
      ("created_at", (record.getField "created_at").getD .null),
      ("filename", (record.getField "filename").getD .null),
      ("summary", (record.getField "summary").getD (.obj [])) ]

/-- The sort key of one summary dict: `x.get("created_at", "")` at
storage.py line 66. Every summary carries the `created_at` key, so the
key is the raw stored value (possibly `None`); the `""` default fires
only for a dict without the key, unreachable on `mkSummary` outputs. -/
def sortKey (s : Json) : Json :=
  (s.getField "created_at").getD (.str "")

/-- The `created_at` string of a summary whose timestamp is a string
(`""` otherwise). Statement-level abbreviation only: the sort itself
compares the raw `sortKey` values. -/
def createdKey (s : Json) : String :=
  match s.getField "created_at" with
  | some (.str t) => t
  | _ => ""

/-- Does Python `a < b` succeed (no `TypeError`) on two sort-key values?
Strings compare with strings; booleans and integers with each other
(`True`/`False` are `1`/`0`); `None` and dicts compare with nothing —
Python raises even between two `None`s or two dicts. Python compares two
lists elementwise, a comparison that can itself raise; list-valued
timestamps are modelled as incomparable (never written by the program
and outside every claim). -/
def keyComparable (a b : Json) : Bool :=
  match a, b with
  | .bool _, .bool _ => true
  | .bool _, .num _ => true
  | .num _, .bool _ => true
  | .num _, .num _ => true
  | .str _, .str _ => true
  | _, _ => false

/-- Ordering group of a sort key (booleans and integers share one). Used
to extend the within-group Python orders to the total preorder `keyLe`
that the Lean-side merge sort needs; the cross-group extension is never
exercised on a store whose sort succeeds. -/
def keyGroup : Json → Nat
  | .null => 0
  | .bool _ => 1
  | .num _ => 1
  | .str _ => 2
  | .arr _ => 3
  | .obj _ => 4

/-- Numeric value of a number-group sort key. -/
def keyNum : Json → Int
  | .bool b => if b then 1 else 0
  | .num n => n
  | _ => 0

/-- String value of a string-group sort key. -/
def keyStr : Json → String
  | .str s => s
  | _ => ""

/-- Total preorder on sort keys: lexicographic on (group, numeric value,
string value). Within the string group this is Python string order,
within the number group Python numeric order; across groups it is an
arbitrary fixed extension, unreachable in an `ok` listing (the sort
fails first). -/
def keyLe (a b : Json) : Bool :=
  decide (keyGroup a < keyGroup b) ||
    (decide (keyGroup a = keyGroup b) &&
      (decide (keyNum a < keyNum b) ||
        (decide (keyNum a = keyNum b) && decide (keyStr a ≤ keyStr b))))

/-- The merge-sort comparison realising `analyses.sort(key=...,
reverse=True)` when it succeeds: stable descending order, i.e. `a` may
stay before `b` iff `b`'s key is at most `a`'s. -/
def summaryLe (a b : Json) : Bool :=
  keyLe (sortKey b) (sortKey a)

/-- The summary list built by the loop of `list_analyses` (storage.py
lines 52-63): one summary per readable dict record, in directory
enumeration order (the store's list order); corrupt files and readable
non-dict values raise inside the `try` and are skipped by
`except Exception: continue`. -/
def summariesOf (store : Store) : List Json :=
  store.filterMap fun e =>
    match e.2 with
    | FileData.good (Json.obj fields) => some (mkSummary (Json.obj fields))
    | _ => none

/-- Does `analyses.sort` succeed? With at most one element no comparison
happens. Otherwise the sort must compare every element against some
other, and within this key grammar two keys from different groups — and
any `None` or dict key — cannot be ordered even transitively, so some
performed comparison raises `TypeError`. -/
def sortOk (summaries : List Json) : Bool :=
  decide (summaries.length ≤ 1) ||
    summaries.all fun a => summaries.all fun b => keyComparable (sortKey a) (sortKey b)

/-- `list_analyses()` (storage.py lines 47-67): build the summaries,
skipping unreadable records, then sort by the raw `created_at` values
descending. The sort is outside the `try`: on incomparable keys it
raises `TypeError` uncaught, and the listing fails as a whole, modelled
by `Except.error`. -/
def list_analyses (store : Store) : Except String (List Json) :=
  if sortOk (summariesOf store) then .ok ((summariesOf store).mergeSort summaryLe)
  else .error "TypeError: unorderable created_at values"

/-- Every readable record in the store is a dict carrying a string
`created_at` — true of every record the program itself writes
(`save_analysis` always stamps an ISO string). -/
def goodTimestamps (store : Store) : Prop :=
  ∀ e ∈ store, ∀ fields, e.2 = FileData.good (Json.obj fields) →
    ∃ ts : String, lookupKey fields "created_at" = some (Json.str ts)

/-!
## routes/contracts.py
-/

/-- An HTTP error response raised via `HTTPException(status_code, detail)`. -/
structure HttpError where
  status : Nat
  detail : String
deriving DecidableEq

/-- The 400 detail of the analyze-text route for short input
(routes/contracts.py lines 83-84). -/
def TEXT_TOO_SHORT_DETAIL : String :=
  "Please provide more contract text (at least 50 characters)"

/-- The 404 detail of the get-analysis and generate-email routes
(routes/contracts.py lines 115 and 126). -/
def NOT_FOUND_DETAIL : String :=
  "Analysis not found or expired"

/-- `analyze_text_endpoint` (routes/contracts.py lines 71-106) up to the
successful analysis value: reject with a 400 when the stripped text is
shorter than 50 characters, before any analysis logic runs; otherwise
call `analyze_contract(text.encode('utf-8'), "pasted_contract.txt",
country)`, mapping a `ValueError` to a 400. (The subsequent id
generation, `_temp_storage` write and response wrapping do not bear on
any claim and are omitted.) -/
def analyze_text_endpoint (pdfExtract docxExtract : List Nat → Except String String)
    (text country : String) (parsedReply : Json) (choice : Fin 5) :
    Except HttpError Json :=
  if (pyStrip text).length < 50 then
    .error ⟨400, TEXT_TOO_SHORT_DETAIL⟩
  else
    match analyze_contract pdfExtract docxExtract (encodeUtf8 text)
        "pasted_contract.txt" country parsedReply choice with
    | .error e => .error ⟨400, e⟩
    | .ok analysis => .ok analysis

/-- `get_analysis_endpoint` (routes/contracts.py lines 109-117):
`_temp_storage.get(analysis_id)`, 404 when absent or falsy
(`if not analysis`), otherwise the stored record. -/
def get_analysis_endpoint (tempStore : List (String × Json)) (analysisId : String) :
    Except HttpError Json :=
  match lookupKey tempStore analysisId with
  | some analysis =>
      if analysis.truthy then .ok analysis else .error ⟨404, NOT_FOUND_DETAIL⟩
  | none => .error ⟨404, NOT_FOUND_DETAIL⟩

/-- `generate_email_endpoint` (routes/contracts.py lines 120-133): 404
when the id is unknown (before any email logic runs), otherwise the
outcome of `generate_negotiation_email` on the stored record. -/
def generate_email_endpoint (tempStore : List (String × Json)) (analysisId : String) :
    Except HttpError EmailOutcome :=
  match lookupKey tempStore analysisId with
  | some analysis =>
      if analysis.truthy then .ok (generate_negotiation_email analysis)
      else .error ⟨404, NOT_FOUND_DETAIL⟩
  | none => .error ⟨404, NOT_FOUND_DETAIL⟩

/-!
## Helper lemmas about the dict model
-/

theorem lookupKey_setKey_self {α : Type} (fs : List (String × α)) (k : String) (v : α) :
    lookupKey (setKey fs k v) k = some v := by
  induction fs with
  | nil => simp [setKey, lookupKey]
  | cons hd tl ih =>
      obtain ⟨k', v'⟩ := hd
      by_cases h : k' = k
      · simp [setKey, lookupKey, h]
      · simp [setKey, lookupKey, h, ih]

theorem lookupKey_setKey_ne {α : Type} (fs : List (String × α)) (k k' : String) (v : α)
    (h : k' ≠ k) : lookupKey (setKey fs k v) k' = lookupKey fs k' := by
  induction fs with
  | nil => simp [setKey, lookupKey, Ne.symm h]
  | cons hd tl ih =>
      obtain ⟨k'', v''⟩ := hd
      by_cases hk : k'' = k
      · subst hk
        simp [setKey, lookupKey, Ne.symm h]
      · by_cases hk' : k'' = k'
        · simp [setKey, lookupKey, hk, hk', h, ih]
        · simp [setKey, lookupKey, hk, hk', h, ih]

theorem setKey_of_lookup_none {α : Type} (fs : List (String × α)) (k : String) (v : α)
    (h : lookupKey fs k = none) : setKey fs k v = fs ++ [(k, v)] := by
  induction fs with
  | nil => simp [setKey]
  | cons hd tl ih =>
      obtain ⟨k', v'⟩ := hd
      by_cases hk : k' = k
      · simp [lookupKey, hk] at h
      · simp [lookupKey, hk] at h
        simp [setKey, hk, ih h]

theorem lookupKey_eq_none {α : Type} (fs : List (String × α)) (k : String)
    (h : k ∉ fs.map Prod.fst) : lookupKey fs k = none := by
  induction fs with
  | nil => rfl
  | cons hd tl ih =>
      obtain ⟨k', v'⟩ := hd
      simp only [List.map_cons, List.mem_cons] at h
      push_neg at h
      simp [lookupKey, Ne.symm h.1, ih h.2]

theorem mem_keys_setKey {α : Type} (fs : List (String × α)) (k k' : String) (v : α) :
    k' ∈ (setKey fs k v).map Prod.fst ↔ k' ∈ fs.map Prod.fst ∨ k' = k := by
  induction fs with
  | nil => simp [setKey]
  | cons hd tl ih =>
      obtain ⟨k'', v''⟩ := hd
      by_cases hk : k'' = k
      · subst hk
        simp [setKey]
        tauto
      · simp [setKey, hk, ih]
        tauto

theorem Json.setField_obj (fs : List (String × Json)) (k : String) (v : Json) :
    (Json.obj fs).setField k v = Json.obj (setKey fs k v) := rfl

theorem Json.getField_setField_self (fs : List (String × Json)) (k : String) (v : Json) :
    ((Json.obj fs).setField k v).getField k = some v :=
  lookupKey_setKey_self fs k v

theorem Json.getField_setField_ne (fs : List (String × Json)) (k k' : String) (v : Json)
    (h : k' ≠ k) :
    ((Json.obj fs).setField k v).getField k' = (Json.obj fs).getField k' :=
  lookupKey_setKey_ne fs k k' v h


theorem keyLe_trans (a b c : Json) (hab : keyLe a b = true) (hbc : keyLe b c = true) :
    keyLe a c = true := by
  simp only [keyLe, Bool.or_eq_true, Bool.and_eq_true, decide_eq_true_eq] at *
  rcases hab with h1 | ⟨h1g, h1r⟩
  · rcases hbc with h2 | ⟨h2g, h2r⟩
    · exact Or.inl (by omega)
    · exact Or.inl (by omega)
  · rcases hbc with h2 | ⟨h2g, h2r⟩
    · exact Or.inl (by omega)
    · refine Or.inr ⟨by omega, ?_⟩
      rcases h1r with h1n | ⟨h1ne, h1s⟩
      · rcases h2r with h2n | ⟨h2ne, h2s⟩
        · exact Or.inl (by omega)
        · exact Or.inl (by omega)
      · rcases h2r with h2n | ⟨h2ne, h2s⟩
        · exact Or.inl (by omega)
        · exact Or.inr ⟨by omega, le_trans h1s h2s⟩

theorem keyLe_total (a b : Json) : keyLe a b || keyLe b a := by
  simp only [keyLe, Bool.or_eq_true, Bool.and_eq_true, decide_eq_true_eq]
  rcases Nat.lt_trichotomy (keyGroup a) (keyGroup b) with h | h | h
  · exact Or.inl (Or.inl h)
  · rcases Int.lt_trichotomy (keyNum a) (keyNum b) with hn | hn | hn
    · exact Or.inl (Or.inr ⟨h, Or.inl hn⟩)
    · rcases le_total (keyStr a) (keyStr b) with hs | hs
      · exact Or.inl (Or.inr ⟨h, Or.inr ⟨hn, hs⟩⟩)
      · exact Or.inr (Or.inr ⟨h.symm, Or.inr ⟨hn.symm, hs⟩⟩)
    · exact Or.inr (Or.inr ⟨h.symm, Or.inl hn⟩)
  · exact Or.inr (Or.inl h)

theorem summaryLe_trans (a b c : Json) (hab : summaryLe a b) (hbc : summaryLe b c) :
    summaryLe a c :=
  keyLe_trans (sortKey c) (sortKey b) (sortKey a) hbc hab

theorem summaryLe_total (a b : Json) : summaryLe a b || summaryLe b a :=
  keyLe_total (sortKey b) (sortKey a)

theorem keyLe_str (s t : String) :
    keyLe (Json.str s) (Json.str t) = decide (s ≤ t) := by
  simp [keyLe, keyGroup, keyNum, keyStr]

theorem createdKey_eq_of_sortKey (y : Json) (t : String)
    (h : sortKey y = Json.str t) : createdKey y = t := by
  simp only [sortKey] at h
  cases hg : y.getField "created_at" with
  | none =>
      rw [hg] at h
      simp only [Option.getD] at h
      cases h
      simp [createdKey, hg]
  | some v =>
      rw [hg] at h
      simp only [Option.getD] at h
      subst h
      simp [createdKey, hg]

theorem head_of_max (l : List Json) (x : Json)
    (hx : x ∈ l) (hs : l.Pairwise (fun a b => summaryLe a b = true))
    (hstr : ∀ y ∈ l, ∃ t, sortKey y = Json.str t)
    (hmax : ∀ y ∈ l, y = x ∨ createdKey y < createdKey x) :
    l.head? = some x := by
  cases l with
  | nil => cases hx
  | cons h t =>
      rcases hmax h (List.mem_cons_self h t) with he | hlt
      · simp [he]
      · rcases List.mem_cons.mp hx with rfl | hxt
        · exact absurd hlt (lt_irrefl _)
        · obtain ⟨th, hth⟩ := hstr h (List.mem_cons_self h t)
          obtain ⟨tx, htx⟩ := hstr x hx
          have hsle := (List.pairwise_cons.mp hs).1 x hxt
          rw [summaryLe, hth, htx, keyLe_str, decide_eq_true_eq] at hsle
          rw [createdKey_eq_of_sortKey h th hth, createdKey_eq_of_sortKey x tx htx] at hlt
          exact absurd (lt_of_lt_of_le hlt hsle) (lt_irrefl _)

theorem summariesOf_length (store : Store) :
    (summariesOf store).length = (store.filter fun e => isGoodRecord e.2).length := by
  induction store with
  | nil => rfl
  | cons e tl ih =>
      obtain ⟨name, fd⟩ := e
      cases fd with
      | good d =>
          cases d <;>
            simp [summariesOf, List.filterMap_cons, List.filter_cons, isGoodRecord,
              ih, summariesOf] <;>
            simpa [summariesOf] using ih
      | corrupt =>
          simpa [summariesOf, List.filterMap_cons, List.filter_cons, isGoodRecord]
            using ih

theorem funnyMessages_getD (dt : String) (i : Fin 5) :
    (funnyMessages dt).getD i.val "" ∈ funnyMessages dt ∧
    ∃ pre post, (funnyMessages dt).getD i.val "" = pre ++ dt ++ post := by
  fin_cases i <;>
    exact ⟨by simp [funnyMessages, List.getD], ⟨_, _, rfl⟩⟩

/-!
## Claim theorems
-/

/-- Claim C1 (refuted; code bug). The spec says a leading code fence
"optionally followed by a language tag" is stripped, so that a wrapped
reply parses to the same JSON as an unwrapped one. In the code the regex
`^```json?\s*` binds `?` only to the final `n`, so only a fence spelled
exactly "```json" (or "```jso") is removed: a bare "```" fence (or any
other language tag) passes the `startswith("```")` guard yet keeps its
leading fence, and the cleaned text then starts with a backtick, which
`json.loads` rejects. First conjunct: the json-tagged wrapper of the JSON
text `\x7b"a": 1\x7d` is recovered exactly. Second and third conjuncts:
the bare-fence wrapper of the same JSON text keeps its leading fence. -/
theorem fence_cleanup_bare_fence_not_stripped :
    cleanModelReply ("```json" ++ "\n\x7b\"a\": 1\x7d\n" ++ "```") = "\x7b\"a\": 1\x7d" ∧
    cleanModelReply ("```" ++ "\n\x7b\"a\": 1\x7d\n" ++ "```") =
      "```" ++ "\n\x7b\"a\": 1\x7d" ∧
    "```".data.isPrefixOf
      (cleanModelReply ("```" ++ "\n\x7b\"a\": 1\x7d\n" ++ "```")).data = true := by
  decide

/-- Claim C2: when the parsed reply's `not_a_contract` field is `true`,
`analyze_contract` returns a rejection mapping carrying
`not_a_contract: true`, `prank_detected: true`, the detected
`document_type` (defaulting to "random document" when the field is
absent), the input filename and the fixed suggestion string, and whose
`message` is one of the five literal templates, each of which contains
the document-type string. -/
theorem rejection_response_shape
    (analysis : Json) (filename country contractText : String) (choice : Fin 5)
    (dt : String)
    (hflag : analysis.getField "not_a_contract" = some (.bool true))
    (hdt : analysis.getField "document_type" = some (.str dt) ∨
           (analysis.getField "document_type" = none ∧ dt = "random document")) :
    (classify analysis filename country contractText choice).getField "not_a_contract" =
        some (.bool true) ∧
    (classify analysis filename country contractText choice).getField "prank_detected" =
        some (.bool true) ∧
    (classify analysis filename country contractText choice).getField "document_type" =
        some (.str dt) ∧
    (classify analysis filename country contractText choice).getField "filename" =
        some (.str filename) ∧
    (classify analysis filename country contractText choice).getField "suggestion" =
        some (.str SUGGESTION_MESSAGE) ∧
    ∃ msg, (classify analysis filename country contractText choice).getField "message" =
        some (.str msg) ∧
      msg ∈ funnyMessages dt ∧
      ∃ pre post, msg = pre ++ dt ++ post := by
  have htr : analysis.truthyField "not_a_contract" = true := by
    simp [Json.truthyField, hflag, Json.truthy]
  have hdoc : (analysis.getField "document_type").getD (.str "random document") =
      Json.str dt := by
    rcases hdt with h | ⟨h, rfl⟩ <;> simp [h]
  have hcl : classify analysis filename country contractText choice =
      Json.obj
        [ ("not_a_contract", .bool true),
          ("prank_detected", .bool true),
          ("document_type", .str dt),
          ("message", .str ((funnyMessages dt).getD choice.val "")),
          ("filename", .str filename),
          ("suggestion", .str SUGGESTION_MESSAGE) ] := by
    simp only [classify, htr, if_true, hdoc, Json.pyStr]
  refine ⟨?_, ?_, ?_, ?_, ?_, ?_⟩ <;> rw [hcl]
  · rfl
  · rfl
  · rfl
  · rfl
  · rfl
  · exact ⟨(funnyMessages dt).getD choice.val "", rfl,
      (funnyMessages_getD dt choice).1, (funnyMessages_getD dt choice).2⟩

/-- Witness for C2 at a concrete rejected reply: `document_type`
"grocery list", template index 0. -/
theorem rejection_response_shape_witness :
    (Json.obj [("not_a_contract", Json.bool true), ("document_type", Json.str "grocery list")]).getField
        "not_a_contract" = some (.bool true) ∧
    ∃ msg, (classify
        (Json.obj [("not_a_contract", Json.bool true), ("document_type", Json.str "grocery list")])
        "prank.txt" "United States" "some text" (0 : Fin 5)).getField "message" =
          some (.str msg) ∧
      msg ∈ funnyMessages "grocery list" ∧
      ∃ pre post, msg = pre ++ "grocery list" ++ post :=
  ⟨rfl,
    (rejection_response_shape
      (Json.obj [("not_a_contract", Json.bool true), ("document_type", Json.str "grocery list")])
      "prank.txt" "United States" "some text" (0 : Fin 5) "grocery list"
      rfl (Or.inl rfl)).2.2.2.2.2⟩

/-- Claim C3: if the extracted text strips to fewer than 50 characters,
`analyze_contract` raises the "not enough text" `ValueError`, and the
result does not depend on the model reply or the message choice (so no
prompt is built and no model call is issued on that branch); if it strips
to at least 50 characters, that error is not raised and the pipeline
proceeds to classification. The analyze-text route applies the same
check and rejects with a 400 before any analysis logic, again
independently of the model reply. -/
theorem short_text_validation :
    (∀ (pdfExtract docxExtract : List Nat → Except String String)
        (fileBytes : List Nat) (filename country text : String)
        (parsedReply : Json) (choice : Fin 5),
        extract_text pdfExtract docxExtract fileBytes filename = .ok text →
        (pyStrip text).length < 50 →
        analyze_contract pdfExtract docxExtract fileBytes filename country
          parsedReply choice = .error NOT_ENOUGH_TEXT_MESSAGE) ∧
    (∀ (pdfExtract docxExtract : List Nat → Except String String)
        (fileBytes : List Nat) (filename country text : String)
        (parsedReply : Json) (choice : Fin 5),
        extract_text pdfExtract docxExtract fileBytes filename = .ok text →
        50 ≤ (pyStrip text).length →
        analyze_contract pdfExtract docxExtract fileBytes filename country
          parsedReply choice =
          .ok (classify parsedReply filename country text choice)) ∧
    (∀ (pdfExtract docxExtract : List Nat → Except String String)
        (text country : String) (parsedReply : Json) (choice : Fin 5),
        (pyStrip text).length < 50 →
        analyze_text_endpoint pdfExtract docxExtract text country parsedReply choice =
          .error ⟨400, TEXT_TOO_SHORT_DETAIL⟩) := by
  refine ⟨?_, ?_, ?_⟩
  · intro pdfX docxX bytes filename country text reply choice hext hshort
    simp [analyze_contract, hext, analyze_contract_text, hshort]
  · intro pdfX docxX bytes filename country text reply choice hext hlong
    have hne : text ≠ "" := by
      intro he
      subst he
      simp [pyStrip] at hlong
    simp [analyze_contract, hext, analyze_contract_text, hne, Nat.not_lt.mpr hlong]
  · intro pdfX docxX text country reply choice hshort
    simp [analyze_text_endpoint, hshort]

/-- Witness for C3: a 7-character text is rejected by the service and the
route; a 55-character text passes the check. -/
theorem short_text_validation_witness :
    extract_text (fun _ => .error "pdf") (fun _ => .error "docx")
        [104, 105] "pasted_contract.txt" = .ok "hi" ∧
    (pyStrip "hi").length < 50 ∧
    analyze_contract (fun _ => .error "pdf") (fun _ => .error "docx")
        [104, 105] "pasted_contract.txt" "United States" (Json.obj []) (0 : Fin 5) =
      .error NOT_ENOUGH_TEXT_MESSAGE ∧
    analyze_text_endpoint (fun _ => .error "pdf") (fun _ => .error "docx")
        "hi" "United States" (Json.obj []) (0 : Fin 5) =
      .error ⟨400, TEXT_TOO_SHORT_DETAIL⟩ :=
  ⟨by decide, by decide,
    short_text_validation.1 (fun _ => .error "pdf") (fun _ => .error "docx")
      [104, 105] "pasted_contract.txt" "United States" "hi" (Json.obj []) (0 : Fin 5)
      (by decide) (by decide),
    short_text_validation.2.2 (fun _ => .error "pdf") (fun _ => .error "docx")
      "hi" "United States" (Json.obj []) (0 : Fin 5) (by decide)⟩

/-- Claim C4: on the successful (non-rejection) branch, the returned
mapping's `contract_text_preview` is the first 500 characters of the
extracted text followed by "..." when the text is longer than 500
characters, and the full text unmodified otherwise; the mapping also
carries the input filename and country. -/
theorem preview_truncation
    (fs : List (String × Json)) (filename country contractText : String) (choice : Fin 5)
    (hflag : (Json.obj fs).truthyField "not_a_contract" = false) :
    (classify (Json.obj fs) filename country contractText choice).getField
        "contract_text_preview" =
      some (.str (if contractText.length > 500 then contractText.take 500 ++ "..."
                  else contractText)) ∧
    (contractText.length ≤ 500 →
      (classify (Json.obj fs) filename country contractText choice).getField
          "contract_text_preview" = some (.str contractText)) ∧
    (500 < contractText.length →
      (classify (Json.obj fs) filename country contractText choice).getField
          "contract_text_preview" = some (.str (contractText.take 500 ++ "...")) ∧
      (contractText.take 500).length = 500) ∧
    (classify (Json.obj fs) filename country contractText choice).getField "filename" =
      some (.str filename) ∧
    (classify (Json.obj fs) filename country contractText choice).getField "country" =
      some (.str country) := by
  have hcl : classify (Json.obj fs) filename country contractText choice =
      Json.obj (setKey (setKey (setKey fs "filename" (.str filename))
        "country" (.str country)) "contract_text_preview"
        (.str (if contractText.length > 500 then contractText.take 500 ++ "..."
               else contractText))) := by
    simp only [classify, hflag, if_false, Bool.false_eq_true, Json.setField]
  have hprev : (classify (Json.obj fs) filename country contractText choice).getField
      "contract_text_preview" =
      some (.str (if contractText.length > 500 then contractText.take 500 ++ "..."
                  else contractText)) := by
    rw [hcl]
    exact lookupKey_setKey_self ..
  refine ⟨hprev, ?_, ?_, ?_, ?_⟩
  · intro hle
    rw [hprev, if_neg (by omega)]
  · intro hgt
    constructor
    · rw [hprev, if_pos (by omega)]
    · have := String.take_eq contractText 500
      have hlen : (contractText.take 500).length = (contractText.data.take 500).length := by
        rw [this]
        rfl
      rw [hlen, List.length_take]
      have : contractText.data.length = contractText.length := rfl
      omega
  · rw [hcl]
    rw [show (Json.obj (setKey (setKey (setKey fs "filename" (.str filename))
        "country" (.str country)) "contract_text_preview"
        (.str (if contractText.length > 500 then contractText.take 500 ++ "..."
               else contractText)))).getField "filename" =
        lookupKey (setKey (setKey (setKey fs "filename" (.str filename))
        "country" (.str country)) "contract_text_preview"
        (.str (if contractText.length > 500 then contractText.take 500 ++ "..."
               else contractText))) "filename" from rfl]
    rw [lookupKey_setKey_ne _ _ _ _ (by decide), lookupKey_setKey_ne _ _ _ _ (by decide)]
    exact lookupKey_setKey_self ..
  · rw [hcl]
    rw [show (Json.obj (setKey (setKey (setKey fs "filename" (.str filename))
        "country" (.str country)) "contract_text_preview"
        (.str (if contractText.length > 500 then contractText.take 500 ++ "..."
               else contractText)))).getField "country" =
        lookupKey (setKey (setKey (setKey fs "filename" (.str filename))
        "country" (.str country)) "contract_text_preview"
        (.str (if contractText.length > 500 then contractText.take 500 ++ "..."
               else contractText))) "country" from rfl]
    rw [lookupKey_setKey_ne _ _ _ _ (by decide)]
    exact lookupKey_setKey_self ..

/-- Witness for C4 at a concrete successful analysis and a short text
(no truncation). -/
theorem preview_truncation_witness :
    (Json.obj [("summary", Json.obj [])]).truthyField "not_a_contract" = false ∧
    "short text".length ≤ 500 ∧
    (classify (Json.obj [("summary", Json.obj [])]) "c.pdf" "India" "short text"
        (0 : Fin 5)).getField "contract_text_preview" = some (.str "short text") :=
  ⟨by decide, by decide,
    (preview_truncation [("summary", Json.obj [])] "c.pdf" "India" "short text" (0 : Fin 5)
      (by decide)).2.1 (by decide)⟩

/-- Claim C5: if no clause has risk level yellow or red,
`generate_negotiation_email` returns the fixed canned message and issues
no model call; otherwise the single model call's prompt data carries
exactly the first at-most-5 yellow/red clauses in their original order
(an order-preserving sublist of the clause list, all concerning, of
length `min 5 (number of concerning clauses)`), together with the
summary and the next steps. -/
theorem negotiation_email_spec :
    (∀ analysis : Json, (∀ c ∈ clausesOf analysis, isConcerning c = false) →
      generate_negotiation_email analysis = .canned NO_NEGOTIATION_MESSAGE) ∧
    (∀ analysis : Json, (∃ c ∈ clausesOf analysis, isConcerning c = true) →
      ∃ pd, generate_negotiation_email analysis = .modelCall pd ∧
        pd.concerning_clauses = ((clausesOf analysis).filter isConcerning).take 5 ∧
        pd.concerning_clauses.Sublist (clausesOf analysis) ∧
        (∀ c ∈ pd.concerning_clauses, isConcerning c = true) ∧
        pd.concerning_clauses.length =
          min 5 ((clausesOf analysis).filter isConcerning).length ∧
        pd.summary = (analysis.getField "summary").getD (.obj []) ∧
        pd.next_steps = (analysis.getField "next_steps").getD (.arr [])) := by
  constructor
  · intro analysis hall
    have hfil : (clausesOf analysis).filter isConcerning = [] := by
      rw [List.filter_eq_nil_iff]
      intro a ha
      simp [hall a ha]
    simp [generate_negotiation_email, hfil]
  · intro analysis ⟨c, hc, hcc⟩
    have hne : (clausesOf analysis).filter isConcerning ≠ [] := by
      intro he
      rw [List.filter_eq_nil_iff] at he
      exact he c hc (by simp [hcc])
    have hemp : ((clausesOf analysis).filter isConcerning).isEmpty = false := by
      simpa [List.isEmpty_iff] using hne
    refine ⟨{ summary := (analysis.getField "summary").getD (.obj []),
              concerning_clauses := ((clausesOf analysis).filter isConcerning).take 5,
              next_steps := (analysis.getField "next_steps").getD (.arr []) },
      by simp [generate_negotiation_email, hemp], rfl, ?_, ?_, ?_, rfl, rfl⟩
    · exact (List.take_sublist 5 _).trans (List.filter_sublist _)
    · intro c' hc'
      exact List.of_mem_filter (List.mem_of_mem_take hc')
    · simp [List.length_take]

/-- Witness for C5: an all-green analysis yields the canned message; a
one-red-clause analysis yields a model call whose prompt data holds
exactly that clause. -/
theorem negotiation_email_spec_witness :
    (∀ c ∈ clausesOf (Json.obj
        [("clauses", Json.arr [Json.obj [("risk_level", Json.str "green")]])]),
      isConcerning c = false) ∧
    generate_negotiation_email (Json.obj
        [("clauses", Json.arr [Json.obj [("risk_level", Json.str "green")]])]) =
      .canned NO_NEGOTIATION_MESSAGE ∧
    ∃ pd, generate_negotiation_email (Json.obj
          [("clauses", Json.arr [Json.obj [("risk_level", Json.str "red")]])]) =
        .modelCall pd ∧
      pd.concerning_clauses = [Json.obj [("risk_level", Json.str "red")]] := by
  refine ⟨by decide, negotiation_email_spec.1 _ (by decide), ?_⟩
  obtain ⟨pd, hcall, heq, -⟩ := negotiation_email_spec.2
    (Json.obj [("clauses", Json.arr [Json.obj [("risk_level", Json.str "red")]])])
    ⟨Json.obj [("risk_level", Json.str "red")],
      by simp [clausesOf, Json.getField, lookupKey], by decide⟩
  exact ⟨pd, hcall, heq.trans rfl⟩

/-- Claim C6: saving a record and then reading the returned id back
yields exactly the written record: its `summary`, `clauses` and
`filename` fields are those of the input record, and the `id` and
`created_at` fields hold the generated identifier and timestamp. -/
theorem save_get_roundtrip (store : Store) (fs : List (String × Json))
    (newId createdAt : String) :
    (save_analysis store (Json.obj fs) newId createdAt).2.2 = newId ∧
    get_analysis (save_analysis store (Json.obj fs) newId createdAt).1 newId =
      .ok (some (save_analysis store (Json.obj fs) newId createdAt).2.1) ∧
    (save_analysis store (Json.obj fs) newId createdAt).2.1.getField "summary" =
      (Json.obj fs).getField "summary" ∧
    (save_analysis store (Json.obj fs) newId createdAt).2.1.getField "clauses" =
      (Json.obj fs).getField "clauses" ∧
    (save_analysis store (Json.obj fs) newId createdAt).2.1.getField "filename" =
      (Json.obj fs).getField "filename" ∧
    (save_analysis store (Json.obj fs) newId createdAt).2.1.getField "id" =
      some (.str newId) ∧
    (save_analysis store (Json.obj fs) newId createdAt).2.1.getField "created_at" =
      some (.str createdAt) := by
  refine ⟨rfl, ?_, ?_, ?_, ?_, ?_, ?_⟩
  · simp only [save_analysis, get_analysis, lookupKey_setKey_self]
  · exact ((lookupKey_setKey_ne _ _ _ _ (by decide)).trans
      (lookupKey_setKey_ne _ _ _ _ (by decide)))
  · exact ((lookupKey_setKey_ne _ _ _ _ (by decide)).trans
      (lookupKey_setKey_ne _ _ _ _ (by decide)))
  · exact ((lookupKey_setKey_ne _ _ _ _ (by decide)).trans
      (lookupKey_setKey_ne _ _ _ _ (by decide)))
  · exact (lookupKey_setKey_ne _ _ _ _ (by decide)).trans (lookupKey_setKey_self ..)
  · exact lookupKey_setKey_self ..

/-- Claim C10: the record written by `save_analysis` (which is also the
caller's dict, mutated in place) has every field other than `id` and
`created_at` unchanged, carries `id` and `created_at` set to the
generated values, has key set exactly the input keys plus those two, is
literally the value stored under the returned id, and — when the input
had no `id` key — differs from the input record, so the caller's mapping
is not left untouched. -/
theorem save_frame_effect (store : Store) (fs : List (String × Json))
    (newId createdAt : String) :
    (∀ k, k ≠ "id" → k ≠ "created_at" →
      (save_analysis store (Json.obj fs) newId createdAt).2.1.getField k =
        (Json.obj fs).getField k) ∧
    (save_analysis store (Json.obj fs) newId createdAt).2.1.getField "id" =
      some (.str newId) ∧
    (save_analysis store (Json.obj fs) newId createdAt).2.1.getField "created_at" =
      some (.str createdAt) ∧
    (∀ k, k ∈ (save_analysis store (Json.obj fs) newId createdAt).2.1.keys ↔
      (k ∈ (Json.obj fs).keys ∨ k = "id" ∨ k = "created_at")) ∧
    lookupKey (save_analysis store (Json.obj fs) newId createdAt).1 newId =
      some (.good (save_analysis store (Json.obj fs) newId createdAt).2.1) ∧
    ("id" ∉ (Json.obj fs).keys →
      (save_analysis store (Json.obj fs) newId createdAt).2.1 ≠ Json.obj fs) := by
  refine ⟨?_, ?_, ?_, ?_, ?_, ?_⟩
  · intro k hk1 hk2
    exact ((lookupKey_setKey_ne _ _ _ _ hk2).trans (lookupKey_setKey_ne _ _ _ _ hk1))
  · exact (lookupKey_setKey_ne _ _ _ _ (by decide)).trans (lookupKey_setKey_self ..)
  · exact lookupKey_setKey_self ..
  · intro k
    show k ∈ (setKey (setKey fs "id" (.str newId)) "created_at" (.str createdAt)).map
        Prod.fst ↔ _
    rw [mem_keys_setKey, mem_keys_setKey]
    show _ ↔ k ∈ fs.map Prod.fst ∨ _
    tauto
  · exact lookupKey_setKey_self ..
  · intro hid hne
    have h1 : (save_analysis store (Json.obj fs) newId createdAt).2.1.getField "id" =
        some (.str newId) :=
      (lookupKey_setKey_ne _ _ _ _ (by decide)).trans (lookupKey_setKey_self ..)
    rw [hne] at h1
    have h2 : (Json.obj fs).getField "id" = none := lookupKey_eq_none fs "id" hid
    rw [h2] at h1
    cases h1

/-- Witness for C10: a one-field record; the `filename` field survives and
the caller's mapping is changed by the save. -/
theorem save_frame_effect_witness :
    ("filename" : String) ≠ "id" ∧ ("filename" : String) ≠ "created_at" ∧
    "id" ∉ (Json.obj [("filename", Json.str "deal.pdf")]).keys ∧
    (save_analysis [] (Json.obj [("filename", Json.str "deal.pdf")]) "u1" "t1").2.1.getField
        "filename" = (Json.obj [("filename", Json.str "deal.pdf")]).getField "filename" ∧
    (save_analysis [] (Json.obj [("filename", Json.str "deal.pdf")]) "u1" "t1").2.1 ≠
      Json.obj [("filename", Json.str "deal.pdf")] :=
  ⟨by decide, by decide, by decide,
    (save_frame_effect [] [("filename", Json.str "deal.pdf")] "u1" "t1").1 "filename"
      (by decide) (by decide),
    (save_frame_effect [] [("filename", Json.str "deal.pdf")] "u1" "t1").2.2.2.2.2
      (by decide)⟩

theorem mem_listing_summaries (store : Store) (s : Json)
    (hs : s ∈ summariesOf store) :
    ∃ e ∈ store, ∃ fields, e.2 = FileData.good (Json.obj fields) ∧
      s = mkSummary (Json.obj fields) := by
  rw [summariesOf] at hs
  obtain ⟨e, he, heq⟩ := List.mem_filterMap.mp hs
  obtain ⟨name, fd⟩ := e
  cases fd with
  | good d =>
      cases d with
      | obj fields =>
          simp only [Option.some.injEq] at heq
          exact ⟨(name, .good (.obj fields)), he, fields, rfl, heq.symm⟩
      | null => simp at heq
      | bool b => simp at heq
      | num n => simp at heq
      | str s2 => simp at heq
      | arr es => simp at heq
  | corrupt => simp at heq

theorem sortKey_summary_of_good (store : Store) (hgood : goodTimestamps store)
    (s : Json) (hs : s ∈ summariesOf store) : ∃ t, sortKey s = Json.str t := by
  obtain ⟨e, he, fields, hfd, rfl⟩ := mem_listing_summaries store s hs
  obtain ⟨ts, hts⟩ := hgood e he fields hfd
  exact ⟨ts, by simp [sortKey, mkSummary, Json.getField, lookupKey, hts]⟩

theorem sortOk_of_strings (summaries : List Json)
    (hstr : ∀ s ∈ summaries, ∃ t, sortKey s = Json.str t) :
    sortOk summaries = true := by
  simp only [sortOk, Bool.or_eq_true, decide_eq_true_eq]
  right
  rw [List.all_eq_true]
  intro a ha
  rw [List.all_eq_true]
  intro b hb
  obtain ⟨ta, hta⟩ := hstr a ha
  obtain ⟨tb, htb⟩ := hstr b hb
  rw [hta, htb]
  rfl

theorem list_analyses_ok (store : Store) (hgood : goodTimestamps store) :
    list_analyses store = .ok ((summariesOf store).mergeSort summaryLe) := by
  rw [list_analyses,
    if_pos (sortOk_of_strings (summariesOf store)
      (fun s hs => sortKey_summary_of_good store hgood s hs))]

/-- Claim C7 (counterexample): at a storage state holding two readable
dict records, one with `created_at: null` and one with a string
timestamp, the raw sort keys do not compare, `analyses.sort` raises
`TypeError` outside the `try`, and the listing fails as a whole —
refuting the frozen claim's "listing never fails" over every storage
state. -/
theorem listing_typeerror_counterexample :
    list_analyses
      [("a", FileData.good (Json.obj [("created_at", Json.null)])),
       ("b", FileData.good (Json.obj [("created_at", Json.str "2024-01-01T00:00:00")]))] =
      .error "TypeError: unorderable created_at values" := by
  rfl

/-- Claim C7 (amended): for every storage state whose readable records
are dicts carrying string `created_at` timestamps — as every record the
program itself writes is — the listing succeeds and returns one summary
with exactly the keys `id`, `created_at`, `filename`, `summary` per
readable dict record, ordered by `created_at` descending; corrupt files
and readable non-dict values are skipped silently. Saving a fresh record
with a later timestamp into such a store adds exactly one summary and
places it first. -/
theorem listing_spec :
    (∀ store : Store, goodTimestamps store →
      ∃ l, list_analyses store = .ok l ∧
        (∀ s ∈ l, s.keys = ["id", "created_at", "filename", "summary"]) ∧
        l.Pairwise (fun a b => createdKey b ≤ createdKey a) ∧
        l.length = (store.filter fun e => isGoodRecord e.2).length) ∧
    (∀ (store : Store) (fs : List (String × Json)) (newId createdAt : String),
      goodTimestamps store →
      lookupKey store newId = none →
      (∀ e ∈ store, ∀ fields, e.2 = FileData.good (Json.obj fields) →
        createdKey (mkSummary (Json.obj fields)) < createdAt) →
      ∃ l, list_analyses (save_analysis store (Json.obj fs) newId createdAt).1 = .ok l ∧
        l.head? = some (mkSummary (save_analysis store (Json.obj fs) newId createdAt).2.1) ∧
        l.length = (store.filter fun e => isGoodRecord e.2).length + 1) := by
  constructor
  · intro store hgood
    refine ⟨(summariesOf store).mergeSort summaryLe, list_analyses_ok store hgood,
      ?_, ?_, ?_⟩
    · intro s hs
      have hmem := (List.mergeSort_perm _ summaryLe).mem_iff.mp hs
      obtain ⟨e, -, fields, -, rfl⟩ := mem_listing_summaries store s hmem
      rfl
    · refine (List.sorted_mergeSort summaryLe_trans summaryLe_total
        (summariesOf store)).imp_of_mem ?_
      intro a b ha hb hr
      obtain ⟨ta, hta⟩ := sortKey_summary_of_good store hgood a
        ((List.mergeSort_perm _ summaryLe).mem_iff.mp ha)
      obtain ⟨tb, htb⟩ := sortKey_summary_of_good store hgood b
        ((List.mergeSort_perm _ summaryLe).mem_iff.mp hb)
      rw [summaryLe, hta, htb, keyLe_str, decide_eq_true_eq] at hr
      rw [createdKey_eq_of_sortKey a ta hta, createdKey_eq_of_sortKey b tb htb]
      exact hr
    · rw [(List.mergeSort_perm _ summaryLe).length_eq]
      exact summariesOf_length store
  · intro store fs newId createdAt hgood hfresh hlate
    have hstore : (save_analysis store (Json.obj fs) newId createdAt).1 =
        store ++ [(newId, .good (save_analysis store (Json.obj fs) newId createdAt).2.1)] :=
      setKey_of_lookup_none store newId _ hfresh
    have hrec_created :
        (save_analysis store (Json.obj fs) newId createdAt).2.1.getField "created_at" =
          some (.str createdAt) := lookupKey_setKey_self ..
    have hsum_created :
        (mkSummary (save_analysis store (Json.obj fs) newId createdAt).2.1).getField
          "created_at" = some (Json.str createdAt) := by
      show some (((save_analysis store (Json.obj fs) newId createdAt).2.1.getField
        "created_at").getD Json.null) = some (Json.str createdAt)
      rw [hrec_created]
      rfl
    have hkey : createdKey (mkSummary (save_analysis store (Json.obj fs) newId createdAt).2.1) =
        createdAt := by
      simp only [createdKey, hsum_created]
    have hgood2 : goodTimestamps (save_analysis store (Json.obj fs) newId createdAt).1 := by
      rw [hstore]
      intro e he fields hfd
      rcases List.mem_append.mp he with h | h
      · exact hgood e h fields hfd
      · rw [List.mem_singleton] at h
        subst h
        injection hfd with hrec2
        have hfields : setKey (setKey fs "id" (Json.str newId)) "created_at"
            (Json.str createdAt) = fields := by
          injection hrec2
        rw [← hfields]
        exact ⟨createdAt, lookupKey_setKey_self ..⟩
    have hsplit : summariesOf (save_analysis store (Json.obj fs) newId createdAt).1 =
        summariesOf store ++
          [mkSummary (save_analysis store (Json.obj fs) newId createdAt).2.1] := by
      rw [summariesOf, hstore, List.filterMap_append, summariesOf]
      rfl
    refine ⟨_, list_analyses_ok _ hgood2, ?_, ?_⟩
    · apply head_of_max
      · rw [(List.mergeSort_perm _ summaryLe).mem_iff, hsplit]
        exact List.mem_append_right _ (List.mem_singleton.mpr rfl)
      · exact List.sorted_mergeSort summaryLe_trans summaryLe_total _
      · intro y hy
        exact sortKey_summary_of_good _ hgood2 y
          ((List.mergeSort_perm _ summaryLe).mem_iff.mp hy)
      · intro y hy
        rw [(List.mergeSort_perm _ summaryLe).mem_iff, hsplit] at hy
        rcases List.mem_append.mp hy with hyl | hyr
        · obtain ⟨e, he, fields, hfd, rfl⟩ := mem_listing_summaries store y hyl
          right
          rw [hkey]
          exact hlate e he fields hfd
        · left
          exact List.mem_singleton.mp hyr
    · rw [(List.mergeSort_perm _ summaryLe).length_eq, hsplit, List.length_append,
        summariesOf_length]
      rfl

/-- Witness for the amended C7 at a store holding one corrupt file: the
saved record's summary is listed first and the listing has exactly one
entry. -/
theorem listing_spec_witness :
    lookupKey ([("bad", FileData.corrupt)] : Store) "u1" = none ∧
    ∃ l, list_analyses (save_analysis [("bad", FileData.corrupt)] (Json.obj [])
        "u1" "2025-01-01T00:00:00").1 = .ok l ∧
      l.head? = some (mkSummary (save_analysis [("bad", FileData.corrupt)] (Json.obj [])
        "u1" "2025-01-01T00:00:00").2.1) ∧
      l.length = 1 := by
  have h := listing_spec.2 [("bad", FileData.corrupt)] [] "u1" "2025-01-01T00:00:00"
    (by
      intro e he fields hfd
      rw [List.mem_singleton] at he
      subst he
      simp at hfd)
    rfl
    (by
      intro e he fields hfd
      rw [List.mem_singleton] at he
      subst he
      simp at hfd)
  obtain ⟨l, h1, h2, h3⟩ := h
  exact ⟨rfl, l, h1, h2, h3.trans (by decide)⟩

/-- Claim C8: for an identifier with no stored record, the store's get
returns the not-found signal (`None`) without raising, and the get and
generate-email routes return a 404 error rather than a server error. -/
theorem unknown_id_not_found :
    (∀ (store : Store) (analysisId : String), lookupKey store analysisId = none →
      get_analysis store analysisId = .ok none) ∧
    (∀ (tempStore : List (String × Json)) (analysisId : String),
      lookupKey tempStore analysisId = none →
      get_analysis_endpoint tempStore analysisId = .error ⟨404, NOT_FOUND_DETAIL⟩ ∧
      generate_email_endpoint tempStore analysisId = .error ⟨404, NOT_FOUND_DETAIL⟩) := by
  constructor
  · intro store analysisId h
    simp [get_analysis, h]
  · intro tempStore analysisId h
    exact ⟨by simp [get_analysis_endpoint, h], by simp [generate_email_endpoint, h]⟩

/-- Witness for C8 at an empty store and an unknown id. -/
theorem unknown_id_not_found_witness :
    lookupKey ([] : Store) "missing" = none ∧
    get_analysis ([] : Store) "missing" = .ok none ∧
    get_analysis_endpoint ([] : List (String × Json)) "missing" =
      .error ⟨404, NOT_FOUND_DETAIL⟩ :=
  ⟨rfl, unknown_id_not_found.1 [] "missing" rfl,
    (unknown_id_not_found.2 [] "missing" rfl).1⟩

/-- Claim C9: for every filename whose lowercased form ends in neither
`.pdf` nor `.docx` (including `.txt`), `extract_text` performs the
best-effort UTF-8 decode of the bytes with invalid sequences ignored and
always succeeds (`decodeUtf8Ignore` is a total function, so the decode
path can never raise), independently of the PDF/DOCX extractors; and on
all-ASCII input the decode returns the bytes as characters unchanged. -/
theorem extract_text_fallback_decode :
    (∀ (pdfExtract docxExtract : List Nat → Except String String)
        (fileBytes : List Nat) (filename : String),
      pyEndsWith (pyLower filename) ".pdf" = false →
      pyEndsWith (pyLower filename) ".docx" = false →
      extract_text pdfExtract docxExtract fileBytes filename =
        .ok (decodeUtf8Ignore fileBytes)) ∧
    (∀ fileBytes : List Nat, (∀ b ∈ fileBytes, b < 128) →
      decodeUtf8Ignore fileBytes = String.mk (fileBytes.map Char.ofNat)) := by
  constructor
  · intro pdfX docxX fileBytes filename hpdf hdocx
    rw [extract_text]
    simp only [hpdf, hdocx, Bool.false_eq_true, if_false]
    split <;> rfl
  · intro fileBytes hascii
    have haux : ∀ (fuel : Nat) (bs : List Nat), (∀ b ∈ bs, b < 128) →
        bs.length ≤ fuel → utf8DecodeAux fuel bs = bs.map Char.ofNat := by
      intro fuel
      induction fuel with
      | zero =>
          intro bs hb hlen
          rw [List.length_eq_zero.mp (Nat.le_zero.mp hlen)]
          rfl
      | succ n ih =>
          intro bs hb hlen
          cases bs with
          | nil => rfl
          | cons b rest =>
              have hbsmall : b < 128 := hb b (List.mem_cons_self b rest)
              simp only [utf8DecodeAux]
              rw [if_pos hbsmall, List.map_cons,
                ih rest (fun x hx => hb x (List.mem_cons_of_mem b hx))
                  (by simpa using hlen)]
    rw [decodeUtf8Ignore, utf8DecodeChars, haux fileBytes.length fileBytes hascii le_rfl]

/-- Witness for C9: an uppercase `.TXT` filename takes the decode path;
the invalid byte 255 is dropped and the ASCII bytes decode to "Hi". -/
theorem extract_text_fallback_decode_witness :
    pyEndsWith (pyLower "NOTES.TXT") ".pdf" = false ∧
    pyEndsWith (pyLower "NOTES.TXT") ".docx" = false ∧
    extract_text (fun _ => .error "pdf lib") (fun _ => .error "docx lib")
      [72, 255, 105] "NOTES.TXT" = .ok "Hi" :=
  ⟨by decide, by decide,
    (extract_text_fallback_decode.1 (fun _ => .error "pdf lib")
      (fun _ => .error "docx lib") [72, 255, 105] "NOTES.TXT"
      (by decide) (by decide)).trans (by decide)⟩
